import Mathlib

/-!
Shallow embedding of the hb-downloader core (src/api/src/lib.rs and
src/api/src/types.rs): the digest engine (`sha1_digest` / `md5_digest`),
the integrity checker (`check_data_validity`) and the fetch-and-persist
pipeline (`HBClient::download`, `HBClient::download_order`).

Bytes are modelled as `Nat` values below 256, byte streams as `List Nat`.
Machine 32-bit and 64-bit arithmetic is modelled with explicit `% 2 ^ 32`
(resp. truncation) on `Nat`.
-/

namespace HbDl

/-! ### 32-bit word primitives -/

/-- Truncate to a 32-bit word, as Rust `u32` wrapping arithmetic does. -/
def u32 (n : Nat) : Nat := n % 4294967296

/-- Left rotation of a 32-bit word `x` by `k` bits (`x.rotate_left(k)` for
`0 < k < 32`, assuming `x < 2 ^ 32`). -/
def rotl (k x : Nat) : Nat := x % 2 ^ (32 - k) * 2 ^ k + x / 2 ^ (32 - k)

/-- Bitwise complement on a 32-bit word (`!x` on `u32`, for `x < 2 ^ 32`). -/
def not32 (x : Nat) : Nat := 4294967295 - x

/-! ### Lowercase hex rendering: the `format!("\x7b:x\x7d", hash)` calls in
`sha1_digest` / `md5_digest` (src/api/src/lib.rs lines 199 and 216) render a
byte array as two lowercase hex digits per byte. -/

/-- One hex digit `0`-`9`, `a`-`f` for a value `n < 16`. -/
def hexChar (n : Nat) : Char :=
  if n < 10 then Char.ofNat (48 + n) else Char.ofNat (87 + n)

/-- The two lowercase hex digits of one byte, high nibble first. -/
def byteHex (b : Nat) : List Char := [hexChar (b / 16 % 16), hexChar (b % 16)]

/-- Lowercase hex string of a byte sequence. -/
def bytesToHex (bs : List Nat) : String := String.mk (bs.map byteHex).flatten

/-! ### SHA-1 (the `sha1` crate behind `sha1_digest`).

`sha1_digest` (src/api/src/lib.rs lines 185-200) feeds the reader through
`Sha1::update` in 1024-byte chunks and finalizes; since incremental update
is concatenation-homomorphic, the digest is the SHA-1 of the whole byte
sequence, embedded here as the standard algorithm (FIPS 180). -/

/-- Big-endian 32-bit words of a byte list (4 bytes per word). -/
def toWordsBE : List Nat → List Nat
  | b0 :: b1 :: b2 :: b3 :: rest =>
      (b0 * 16777216 + b1 * 65536 + b2 * 256 + b3) :: toWordsBE rest
  | _ => []

/-- Big-endian bytes of a 32-bit word, most significant first. -/
def wordBytesBE (w : Nat) : List Nat :=
  [w / 16777216 % 256, w / 65536 % 256, w / 256 % 256, w % 256]

/-- Merkle-Damgard padding with a big-endian 64-bit bit length (SHA-1). -/
def sha1Pad (msg : List Nat) : List Nat :=
  let len := msg.length
  let zeros := (119 - len % 64) % 64
  let bitLen := 8 * len % 18446744073709551616
  msg ++ [128] ++ List.replicate zeros 0 ++
    [bitLen / 2 ^ 56 % 256, bitLen / 2 ^ 48 % 256, bitLen / 2 ^ 40 % 256,
     bitLen / 2 ^ 32 % 256, bitLen / 2 ^ 24 % 256, bitLen / 2 ^ 16 % 256,
     bitLen / 2 ^ 8 % 256, bitLen % 256]

/-- The 80-word SHA-1 message schedule of one 64-byte block. -/
def sha1Words (block : List Nat) : List Nat :=
  (List.range 64).foldl
    (fun ws _ =>
      let n := ws.length
      ws ++ [rotl 1 (Nat.xor (Nat.xor (ws.getD (n - 3) 0) (ws.getD (n - 8) 0))
        (Nat.xor (ws.getD (n - 14) 0) (ws.getD (n - 16) 0)))])
    (toWordsBE block)

/-- One SHA-1 round: round index `i`, schedule word `w`. -/
def sha1Round (st : Nat × Nat × Nat × Nat × Nat) (iw : Nat × Nat) :
    Nat × Nat × Nat × Nat × Nat :=
  let (a, b, c, d, e) := st
  let (i, w) := iw
  let f :=
    if i < 20 then Nat.lor (Nat.land b c) (Nat.land (not32 b) d)
    else if i < 40 then Nat.xor b (Nat.xor c d)
    else if i < 60 then
      Nat.lor (Nat.lor (Nat.land b c) (Nat.land b d)) (Nat.land c d)
    else Nat.xor b (Nat.xor c d)
  let k :=
    if i < 20 then 1518500249
    else if i < 40 then 1859775393
    else if i < 60 then 2400959708
    else 3395469782
  let temp := u32 (rotl 5 a + f + e + k + w)
  (temp, a, rotl 30 b, c, d)

/-- SHA-1 compression of one 64-byte block into the running state. -/
def sha1Compress (h : Nat × Nat × Nat × Nat × Nat) (block : List Nat) :
    Nat × Nat × Nat × Nat × Nat :=
  let (h0, h1, h2, h3, h4) := h
  let (a, b, c, d, e) :=
    (((List.range 80).zip (sha1Words block)).foldl sha1Round (h0, h1, h2, h3, h4))
  (u32 (h0 + a), u32 (h1 + b), u32 (h2 + c), u32 (h3 + d), u32 (h4 + e))

/-- The 20 digest bytes of the SHA-1 of a byte sequence. -/
def sha1Bytes (msg : List Nat) : List Nat :=
  let padded := sha1Pad msg
  let (h0, h1, h2, h3, h4) :=
    (List.range (padded.length / 64)).foldl
      (fun h i => sha1Compress h ((padded.drop (64 * i)).take 64))
      (1732584193, 4023233417, 2562383102, 271733878, 3285377520)
  wordBytesBE h0 ++ wordBytesBE h1 ++ wordBytesBE h2 ++ wordBytesBE h3 ++
    wordBytesBE h4

/-- `sha1_digest` (src/api/src/lib.rs lines 185-200): lowercase hex SHA-1 of
the byte stream. -/
def sha1Hex (msg : List Nat) : String := bytesToHex (sha1Bytes msg)

/-! ### MD5 (the `md5` crate behind `md5_digest`). -/

/-- Little-endian 32-bit words of a byte list (4 bytes per word). -/
def toWordsLE : List Nat → List Nat
  | b0 :: b1 :: b2 :: b3 :: rest =>
      (b0 + b1 * 256 + b2 * 65536 + b3 * 16777216) :: toWordsLE rest
  | _ => []

/-- Little-endian bytes of a 32-bit word, least significant first. -/
def wordBytesLE (w : Nat) : List Nat :=
  [w % 256, w / 256 % 256, w / 65536 % 256, w / 16777216 % 256]

/-- MD5 padding: same 0x80-and-zeros fill as SHA-1 but the 64-bit bit
length is appended little-endian. -/
def md5Pad (msg : List Nat) : List Nat :=
  let len := msg.length
  let zeros := (119 - len % 64) % 64
  let bitLen := 8 * len % 18446744073709551616
  msg ++ [128] ++ List.replicate zeros 0 ++
    [bitLen % 256, bitLen / 2 ^ 8 % 256, bitLen / 2 ^ 16 % 256,
     bitLen / 2 ^ 24 % 256, bitLen / 2 ^ 32 % 256, bitLen / 2 ^ 40 % 256,
     bitLen / 2 ^ 48 % 256, bitLen / 2 ^ 56 % 256]

/-- The 64 MD5 sine-derived round constants. -/
def md5K : List Nat :=
  [3614090360, 3905402710, 606105819, 3250441966, 4118548399, 1200080426,
   2821735955, 4249261313, 1770035416, 2336552879, 4294925233, 2304563134,
   1804603682, 4254626195, 2792965006, 1236535329, 4129170786, 3225465664,
   643717713, 3921069994, 3593408605, 38016083, 3634488961, 3889429448,
   568446438, 3275163606, 4107603335, 1163531501, 2850285829, 4243563512,
   1735328473, 2368359562, 4294588738, 2272392833, 1839030562, 4259657740,
   2763975236, 1272893353, 4139469664, 3200236656, 681279174, 3936430074,
   3572445317, 76029189, 3654602809, 3873151461, 530742520, 3299628645,
   4096336452, 1126891415, 2878612391, 4237533241, 1700485571, 2399980690,
   4293915773, 2240044497, 1873313359, 4264355552, 2734768916, 1309151649,
   4149444226, 3174756917, 718787259, 3951481745]

/-- The 64 MD5 per-round left-rotation amounts. -/
def md5S : List Nat :=
  [7, 12, 17, 22, 7, 12, 17, 22, 7, 12, 17, 22, 7, 12, 17, 22,
   5, 9, 14, 20, 5, 9, 14, 20, 5, 9, 14, 20, 5, 9, 14, 20,
   4, 11, 16, 23, 4, 11, 16, 23, 4, 11, 16, 23, 4, 11, 16, 23,
   6, 10, 15, 21, 6, 10, 15, 21, 6, 10, 15, 21, 6, 10, 15, 21]

/-- One MD5 round over the message words `m` of the current block. -/
def md5Round (m : List Nat) (st : Nat × Nat × Nat × Nat) (i : Nat) :
    Nat × Nat × Nat × Nat :=
  let (a, b, c, d) := st
  let (f, g) :=
    if i < 16 then (Nat.lor (Nat.land b c) (Nat.land (not32 b) d), i)
    else if i < 32 then (Nat.lor (Nat.land d b) (Nat.land (not32 d) c),
      (5 * i + 1) % 16)
    else if i < 48 then (Nat.xor b (Nat.xor c d), (3 * i + 5) % 16)
    else (Nat.xor c (Nat.lor b (not32 d)), 7 * i % 16)
  let f2 := u32 (f + a + md5K.getD i 0 + m.getD g 0)
  (d, u32 (b + rotl (md5S.getD i 0) f2), b, c)

/-- MD5 compression of one 64-byte block into the running state. -/
def md5Compress (h : Nat × Nat × Nat × Nat) (block : List Nat) :
    Nat × Nat × Nat × Nat :=
  let (h0, h1, h2, h3) := h
  let (a, b, c, d) :=
    (List.range 64).foldl (md5Round (toWordsLE block)) (h0, h1, h2, h3)
  (u32 (h0 + a), u32 (h1 + b), u32 (h2 + c), u32 (h3 + d))

/-- The 16 digest bytes of the MD5 of a byte sequence. -/
def md5Bytes (msg : List Nat) : List Nat :=
  let padded := md5Pad msg
  let (a, b, c, d) :=
    (List.range (padded.length / 64)).foldl
      (fun h i => md5Compress h ((padded.drop (64 * i)).take 64))
      (1732584193, 4023233417, 2562383102, 271733878)
  wordBytesLE a ++ wordBytesLE b ++ wordBytesLE c ++ wordBytesLE d

/-- `md5_digest` (src/api/src/lib.rs lines 202-217): lowercase hex MD5 of
the byte stream. -/
def md5Hex (msg : List Nat) : String := bytesToHex (md5Bytes msg)

set_option maxRecDepth 40000

/-- Known-answer check: SHA-1 of the empty input (spec section 8). -/
theorem sha1Hex_empty :
    sha1Hex [] = "da39a3ee5e6b4b0d3255bfef95601890afd80709" := by decide

/-- Known-answer check: SHA-1 of the ASCII bytes of "abc". -/
theorem sha1Hex_abc :
    sha1Hex [97, 98, 99] = "a9993e364706816aba3e25717850c26c9cd0d89d" := by
  decide

/-- Known-answer check: MD5 of the empty input. -/
theorem md5Hex_empty :
    md5Hex [] = "d41d8cd98f00b204e9800998ecf8427e" := by decide

/-- Known-answer check: MD5 of the ASCII bytes of "abc". -/
theorem md5Hex_abc :
    md5Hex [97, 98, 99] = "900150983cd24fb0d6963f7d28e17f72" := by decide

/-! ### Data model (src/api/src/types.rs) -/

/-- `types::Url` (src/api/src/types.rs lines 41-43): the wrapper holding a
web download address. -/
structure Url where
  web : String
deriving DecidableEq, Repr

/-- `types::DownloadStruct` (src/api/src/types.rs lines 33-37): one
download variant with optional SHA-1 digest, URL and MD5 digest. -/
structure DownloadStruct where
  sha1 : Option String
  url : Option Url
  md5 : Option String
deriving DecidableEq, Repr

/-- `types::Download` (src/api/src/types.rs lines 23-29). -/
structure Download where
  platform : String
  download_struct : List DownloadStruct
  download_identifier : Option String
deriving DecidableEq, Repr

/-- `types::Subproduct` (src/api/src/types.rs lines 17-19). -/
structure Subproduct where
  downloads : List Download
deriving DecidableEq, Repr

/-- `types::Order` (src/api/src/types.rs lines 11-13). -/
structure Order where
  subproducts : List Subproduct
deriving DecidableEq, Repr

/-- `types::OrderListItem` (src/api/src/types.rs lines 5-7). -/
structure OrderListItem where
  gamekey : String
deriving DecidableEq, Repr

/-! ### URL model.

`HBClient::download` calls `url::Url::parse` (an external crate) on the
variant's web address and then walks `path_segments()`. The crate is
modelled here for absolute hierarchical URLs of the shape
`scheme://host/path?query#fragment`; `pathSegs` is what
`path_segments()` yields: the path after the leading slash, split on
every slash (so a trailing slash yields a final empty segment and a
missing path yields the single segment `""`). The query never
contributes to the path segments, exactly as in the crate. -/

structure ParsedUrl where
  scheme : String
  host : String
  pathSegs : List String
  query : Option String
deriving DecidableEq, Repr

/-- Split a character list at the first occurrence of `sep`: the part
before and the part after, or `none` when `sep` does not occur. -/
def breakAt (sep : Char) : List Char → Option (List Char × List Char)
  | [] => none
  | c :: rest =>
    if c = sep then some ([], rest)
    else (breakAt sep rest).map fun p => (c :: p.1, p.2)

/-- The characters before the first occurrence of `sep` (all of them when
`sep` does not occur). -/
def takeUntil (sep : Char) : List Char → List Char
  | [] => []
  | c :: rest => if c = sep then [] else c :: takeUntil sep rest

/-- The characters after the first occurrence of `sep`, when it occurs. -/
def dropThrough (sep : Char) : List Char → Option (List Char)
  | [] => none
  | c :: rest => if c = sep then some rest else dropThrough sep rest

/-- Split on every occurrence of `sep`; the result is never empty. -/
def splitAll (sep : Char) : List Char → List (List Char)
  | [] => [[]]
  | c :: rest =>
    if c = sep then [] :: splitAll sep rest
    else
      match splitAll sep rest with
      | [] => [[c]]
      | p :: ps => (c :: p) :: ps

/-- Model of `url::Url::parse`, restricted to absolute hierarchical URLs
`scheme://host/path?query#fragment`; `none` models
`Err(url::ParseError)`. -/
def parseUrl (s : String) : Option ParsedUrl :=
  match breakAt ':' s.data with
  | none => none
  | some (scheme, rest) =>
    if scheme = [] then none
    else
      match rest with
      | '/' :: '/' :: rest2 =>
        let noFrag := takeUntil '#' rest2
        let hostPath := takeUntil '?' noFrag
        let query := (dropThrough '?' noFrag).map String.mk
        match splitAll '/' hostPath with
        | [] => none
        | host :: segs =>
          if host = [] then none
          else some { scheme := String.mk scheme, host := String.mk host,
                      pathSegs := if segs = [] then [""] else segs.map String.mk,
                      query := query }
      | _ => none

/-- `download_url.path_segments()` in the model: always available because
the model only produces hierarchical URLs. -/
def pathSegments (u : ParsedUrl) : List String := u.pathSegs

/-- Lines 106-109 of src/api/src/lib.rs before the `unwrap()`: the last
path segment, filtered to `none` when it is empty. -/
def derivedFilename (u : ParsedUrl) : Option String :=
  (pathSegments u).getLast?.bind fun name => if name = "" then none else some name

/-- Modelled from the spec's words, for comparison with `derivedFilename`:
"the last non-empty path segment of the download URL". -/
def specLastNonEmptySegment (u : ParsedUrl) : Option String :=
  ((pathSegments u).filter fun s => s ≠ "").getLast?

/-! ### Effects, errors and the client -/

/-- `ApiError` (src/api/src/lib.rs lines 32-40). -/
inductive ApiError where
  | api
  | ioErr
  | urlParse
deriving DecidableEq, Repr

/-- Outcome of handling one variant inside the `download` loop: `cont` is
the Rust `continue` (or simply reaching the end of the loop body), `fail`
an early `return Err(..)` via `?`, `panicked` an `unwrap` panic. -/
inductive VariantStep where
  | cont
  | fail (e : ApiError)
  | panicked
deriving DecidableEq, Repr

/-- Result of `download` / `download_order`: `Ok(())`, `Err(e)`, or a
panic unwinding out of the call. -/
inductive Outcome where
  | ok
  | fail (e : ApiError)
  | panicked
deriving DecidableEq, Repr

/-- The download folder's contents: newest binding of a path shadows the
older ones, so `fsRead` sees the latest write. -/
def FS := List (String × List Nat)
deriving DecidableEq

/-- Effect trace of a pipeline run: every HTTP request issued (by URL) and
every file creation, in order. -/
structure Trace where
  requests : List String
  writes : List String
deriving DecidableEq, Repr

/-- Read a file's current content; `none` models `exists() = false` (and
an `Err` from `File::open`). -/
def fsRead (fs : FS) (path : String) : Option (List Nat) := List.lookup path fs

instance {ε α : Type _} [DecidableEq ε] [DecidableEq α] :
    DecidableEq (Except ε α)
  | Except.error a, Except.error b =>
    if h : a = b then isTrue (by rw [h])
    else isFalse fun hh => h (Except.error.inj hh)
  | Except.error _, Except.ok _ => isFalse fun hh => Except.noConfusion hh
  | Except.ok _, Except.error _ => isFalse fun hh => Except.noConfusion hh
  | Except.ok a, Except.ok b =>
    if h : a = b then isTrue (by rw [h])
    else isFalse fun hh => h (Except.ok.inj hh)

/-- `HBClient` (src/api/src/lib.rs lines 25-30): the reqwest client and
header map are folded into `http`, the response the remote host gives for
a GET on a URL — `none` is a transport error, otherwise the optional
`Content-Length` header and the body's chunk stream. -/
structure Client where
  download_folder : String
  platforms : List String
  http : String → Option (Option Nat × List (List Nat))

/-! ### Integrity checker -/

/-- `check_data_validity` (src/api/src/lib.rs lines 159-183): open the
file at `path` (propagating an I/O error when it cannot be read), then —
if a SHA-1 digest is expected, compare it to the lowercase hex SHA-1 of
the content and return `false` on mismatch; otherwise, if an MD5 digest
is expected, do the same with MD5; otherwise fall through — reaching
`Ok(true)` when no expected digest mismatched. -/
def check_data_validity (download_struct : DownloadStruct) (fs : FS)
    (path : String) : Except ApiError Bool :=
  match fsRead fs path with
  | none => Except.error ApiError.ioErr
  | some content =>
    match download_struct.sha1 with
    | some expected_hash =>
      if expected_hash ≠ sha1Hex content then Except.ok false
      else Except.ok true
    | none =>
      match download_struct.md5 with
      | some expected_hash =>
        if expected_hash ≠ md5Hex content then Except.ok false
        else Except.ok true
      | none => Except.ok true

/-! ### Fetch-and-persist pipeline (`HBClient::download`, lines 93-156) -/

/-- The progress counter of the streaming loop (lines 137-146): starting
from 0, each chunk sets it to `min(downloaded + chunk.len(), total_size)`
where `total_size = response.content_length().unwrap_or(0)`. -/
def streamLoop (total_size : Nat) (chunks : List (List Nat)) : Nat :=
  chunks.foldl (fun downloaded chunk => min (downloaded + chunk.length) total_size) 0

/-- Lines 125-152: create (truncate) the target file, issue the GET,
stream the body to the file while updating the progress counter, then run
`check_data_validity` once more on the written file, ignoring its boolean
(the empty `if .. \x7b\x7d` branch on line 152) but propagating its I/O
error. -/
def fetchAndWrite (cl : Client) (u : Url) (file : DownloadStruct)
    (file_name : String) (fs : FS) (t : Trace) : VariantStep × FS × Trace :=
  let fs1 : FS := (file_name, []) :: fs
  let t1 : Trace := { t with writes := t.writes ++ [file_name] }
  let t2 : Trace := { t1 with requests := t1.requests ++ [u.web] }
  match cl.http u.web with
  | none => (VariantStep.fail ApiError.api, fs1, t2)
  | some (content_length, chunks) =>
    let total_size := content_length.getD 0
    let _ := streamLoop total_size chunks
    let fs2 : FS := (file_name, chunks.flatten) :: fs1
    match check_data_validity file fs2 file_name with
    | Except.error e => (VariantStep.fail e, fs2, t2)
    | Except.ok _ => (VariantStep.cont, fs2, t2)

/-- One iteration of the `for file in &download.download_struct` loop
(lines 94-152): skip a variant without URL; skip when the platform is not
allowed; parse the URL (`?` on failure); take the last path segment,
panicking via `unwrap()` when it is empty; reuse an existing valid file;
otherwise fetch and write. -/
def processVariant (cl : Client) (platform : String) (file : DownloadStruct)
    (fs : FS) (t : Trace) : VariantStep × FS × Trace :=
  match file.url with
  | none => (VariantStep.cont, fs, t)
  | some u =>
    match cl.platforms.contains platform with
    | false => (VariantStep.cont, fs, t)
    | true =>
      match parseUrl u.web with
      | none => (VariantStep.fail ApiError.urlParse, fs, t)
      | some download_url =>
        match derivedFilename download_url with
        | none => (VariantStep.panicked, fs, t)
        | some fname =>
          let file_name := cl.download_folder ++ "/" ++ fname
          match fsRead fs file_name with
          | some _ =>
            match check_data_validity file fs file_name with
            | Except.error e => (VariantStep.fail e, fs, t)
            | Except.ok true => (VariantStep.cont, fs, t)
            | Except.ok false => fetchAndWrite cl u file file_name fs t
          | none => fetchAndWrite cl u file file_name fs t

/-- The variant loop of `HBClient::download`: `cont` proceeds to the next
variant, an error or panic aborts the remaining variants. -/
def downloadLoop (cl : Client) (platform : String) :
    List DownloadStruct → FS → Trace → Outcome × FS × Trace
  | [], fs, t => (Outcome.ok, fs, t)
  | file :: rest, fs, t =>
    match processVariant cl platform file fs t with
    | (VariantStep.cont, fs2, t2) => downloadLoop cl platform rest fs2 t2
    | (VariantStep.fail e, fs2, t2) => (Outcome.fail e, fs2, t2)
    | (VariantStep.panicked, fs2, t2) => (Outcome.panicked, fs2, t2)

/-- `HBClient::download` (src/api/src/lib.rs lines 93-156). -/
def download (cl : Client) (d : Download) (fs : FS) (t : Trace) :
    Outcome × FS × Trace :=
  downloadLoop cl d.platform d.download_struct fs t

/-- The `for download in &product.downloads` loop of `download_order`:
`self.download(download).await?` short-circuits on the first error. -/
def downloadsLoop (cl : Client) :
    List Download → FS → Trace → Outcome × FS × Trace
  | [], fs, t => (Outcome.ok, fs, t)
  | d :: rest, fs, t =>
    match download cl d fs t with
    | (Outcome.ok, fs2, t2) => downloadsLoop cl rest fs2 t2
    | out => out

/-- The `for product in &order.subproducts` loop of `download_order`. -/
def subproductsLoop (cl : Client) :
    List Subproduct → FS → Trace → Outcome × FS × Trace
  | [], fs, t => (Outcome.ok, fs, t)
  | p :: rest, fs, t =>
    match downloadsLoop cl p.downloads fs t with
    | (Outcome.ok, fs2, t2) => subproductsLoop cl rest fs2 t2
    | out => out

/-- `HBClient::download_order` (src/api/src/lib.rs lines 83-91). -/
def download_order (cl : Client) (order : Order) (fs : FS) (t : Trace) :
    Outcome × FS × Trace :=
  subproductsLoop cl order.subproducts fs t

/-! ### Helper lemmas -/

/-- Every hex digit emitted by `hexChar` on a nibble is a digit or a
lowercase letter; in particular it is never an uppercase `A`-`F`. -/
lemma hexChar_not_upper :
    ∀ n, n < 16 → ¬(65 ≤ (hexChar n).toNat ∧ (hexChar n).toNat ≤ 70) := by
  decide

/-- No character of a `bytesToHex` rendering is an uppercase `A`-`F`. -/
lemma bytesToHex_no_upper (c : Char) (bs : List Nat)
    (h : c ∈ (bytesToHex bs).data) : ¬(65 ≤ c.toNat ∧ c.toNat ≤ 70) := by
  have hd : (bytesToHex bs).data = (bs.map byteHex).flatten := rfl
  rw [hd] at h
  rcases List.mem_flatten.mp h with ⟨l, hl, hc⟩
  rcases List.mem_map.mp hl with ⟨b, _, rfl⟩
  simp only [byteHex, List.mem_cons, List.not_mem_nil, or_false] at hc
  rcases hc with hc | hc <;> subst hc
  · exact hexChar_not_upper _ (Nat.mod_lt _ (by omega))
  · exact hexChar_not_upper _ (Nat.mod_lt _ (by omega))

/-- A string containing an uppercase `A`-`F` differs from every lowercase
hex rendering. -/
lemma upper_ne_bytesToHex (e : String) (c : Char) (hc : c ∈ e.data)
    (hup : 65 ≤ c.toNat ∧ c.toNat ≤ 70) (bs : List Nat) :
    e ≠ bytesToHex bs := by
  intro he
  exact bytesToHex_no_upper c bs (he ▸ hc) hup

/-- The streaming progress counter never exceeds `total_size`, from any
start value below it. -/
lemma streamLoop_aux_le (total_size : Nat) :
    ∀ (chunks : List (List Nat)) (acc : Nat), acc ≤ total_size →
      chunks.foldl (fun downloaded chunk =>
        min (downloaded + chunk.length) total_size) acc ≤ total_size
  | [], _, h => h
  | _ :: rest, _acc, _ =>
    streamLoop_aux_le total_size rest _ (Nat.min_le_right _ _)

/-! ### Concrete example material used by witnesses and counterexamples -/

/-- A concrete client: folder `dl`, allow-set `\x7blinux\x7d`, remote host
answering every GET with Content-Length 3 and body bytes `abc` sent in
two chunks. -/
def clientA : Client :=
  { download_folder := "dl", platforms := ["linux"],
    http := fun _ => some (some 3, [[97], [98, 99]]) }

/-- A concrete client whose remote host fails every GET. -/
def clientFail : Client :=
  { download_folder := "dl", platforms := ["linux"],
    http := fun _ => none }

/-- A variant with a well-formed URL and no expected digest. -/
def varGood : DownloadStruct :=
  { sha1 := none, url := some ⟨"https://h/a.bin"⟩, md5 := none }

/-- A variant whose URL parses but whose path ends in a slash, so the
last path segment is empty. -/
def varSlash : DownloadStruct :=
  { sha1 := none, url := some ⟨"https://cdn.example/dir/"⟩, md5 := none }

/-- A variant whose URL does not parse at all. -/
def varNoParse : DownloadStruct :=
  { sha1 := none, url := some ⟨"not a url"⟩, md5 := none }

/-! ### Claim theorems -/

/-- C10: the bytes-downloaded progress counter never exceeds the declared
content length (absent Content-Length treated as 0), at every prefix of
the chunk stream; with no Content-Length it stays 0 however many bytes
are written. -/
theorem C10_progress_counter_bounded (content_length : Option Nat)
    (chunks : List (List Nat)) (k : Nat) :
    streamLoop (content_length.getD 0) (chunks.take k) ≤ content_length.getD 0 ∧
    (content_length = none →
      streamLoop (content_length.getD 0) (chunks.take k) = 0) := by
  refine ⟨streamLoop_aux_le _ _ 0 (Nat.zero_le _), fun h => ?_⟩
  subst h
  exact Nat.le_zero.mp (streamLoop_aux_le 0 _ 0 (Nat.le_refl 0))

/-- Witness for C10 at a concrete chunk stream with no Content-Length. -/
theorem C10_witness :
    streamLoop ((none : Option Nat).getD 0) ([[1, 2], [3]].take 2) ≤
      (none : Option Nat).getD 0 ∧
    streamLoop ((none : Option Nat).getD 0) ([[1, 2], [3]].take 2) = 0 :=
  ⟨(C10_progress_counter_bounded none [[1, 2], [3]] 2).1,
   (C10_progress_counter_bounded none [[1, 2], [3]] 2).2 rfl⟩

/-- C4: with neither SHA-1 nor MD5 expected, verification returns true
for every readable content and can only fail with the I/O error of an
unreadable source — never with a mismatch. -/
theorem C4_no_digest_trivially_valid (ds : DownloadStruct) (fs : FS)
    (path : String) (h1 : ds.sha1 = none) (h2 : ds.md5 = none) :
    check_data_validity ds fs path =
      if (fsRead fs path).isSome then Except.ok true
      else Except.error ApiError.ioErr := by
  unfold check_data_validity
  cases hr : fsRead fs path <;> simp [h1, h2, hr]

/-- Witness for C4 on a concrete one-byte file. -/
theorem C4_witness :
    check_data_validity ⟨none, none, none⟩ [("p", [1])] "p" = Except.ok true := by
  rw [C4_no_digest_trivially_valid ⟨none, none, none⟩ [("p", [1])] "p" rfl rfl]
  rfl

/-- C3: when both digests are populated, only SHA-1 is consulted: a
matching SHA-1 with a mismatching MD5 still verifies as true. -/
theorem C3_sha1_precedence_over_md5 (ds : DownloadStruct) (fs : FS)
    (path : String) (content : List Nat) (m : String)
    (hf : fsRead fs path = some content)
    (hs : ds.sha1 = some (sha1Hex content))
    (hm : ds.md5 = some m) (hmne : m ≠ md5Hex content) :
    check_data_validity ds fs path = Except.ok true := by
  unfold check_data_validity
  simp [hf, hs]

/-- Witness for C3: the empty file with its true SHA-1 and an impossible
MD5 verifies as true. -/
theorem C3_witness :
    check_data_validity
      ⟨some "da39a3ee5e6b4b0d3255bfef95601890afd80709", none, some "00"⟩
      [("p", [])] "p" = Except.ok true :=
  C3_sha1_precedence_over_md5 _ [("p", [])] "p" [] "00" rfl (by decide) rfl
    (by decide)

/-- C9: digest comparison is exact string equality against a lowercase
hex rendering, so an expected digest containing an uppercase hex letter
can never match and verification returns false for every content. -/
theorem C9_uppercase_expected_digest_never_matches (ds : DownloadStruct)
    (fs : FS) (path : String) (content : List Nat) (e : String) (c : Char)
    (hf : fsRead fs path = some content) (hc : c ∈ e.data)
    (hup : 65 ≤ c.toNat ∧ c.toNat ≤ 70) :
    (ds.sha1 = some e → check_data_validity ds fs path = Except.ok false) ∧
    (ds.sha1 = none → ds.md5 = some e →
      check_data_validity ds fs path = Except.ok false) := by
  constructor
  · intro hs
    have hne : e ≠ sha1Hex content :=
      upper_ne_bytesToHex e c hc hup (sha1Bytes content)
    unfold check_data_validity
    simp [hf, hs, hne]
  · intro hs hm
    have hne : e ≠ md5Hex content :=
      upper_ne_bytesToHex e c hc hup (md5Bytes content)
    unfold check_data_validity
    simp [hf, hs, hm, hne]

/-- C1: a variant whose derived target path already holds a file passing
the integrity check is skipped: no HTTP request, no filesystem write, the
state and the effect trace are untouched, so a second run is a no-op for
that variant. -/
theorem C1_existing_valid_file_not_refetched (cl : Client)
    (platform : String) (file : DownloadStruct) (fs : FS) (t : Trace)
    (u : Url) (download_url : ParsedUrl) (fname : String)
    (content : List Nat)
    (hu : file.url = some u)
    (hp : cl.platforms.contains platform = true)
    (hparse : parseUrl u.web = some download_url)
    (hname : derivedFilename download_url = some fname)
    (hexists :
      fsRead fs (cl.download_folder ++ "/" ++ fname) = some content)
    (hvalid : check_data_validity file fs
      (cl.download_folder ++ "/" ++ fname) = Except.ok true) :
    processVariant cl platform file fs t = (VariantStep.cont, fs, t) := by
  unfold processVariant
  simp only [hu, hp, hparse, hname, hexists, hvalid]

/-- Witness for C1: a pre-existing empty file with its true SHA-1 is left
alone. -/
theorem C1_witness :
    processVariant clientA "linux"
      ⟨some "da39a3ee5e6b4b0d3255bfef95601890afd80709",
       some ⟨"https://h/a.bin"⟩, none⟩
      [("dl/a.bin", [])] ⟨[], []⟩ =
      (VariantStep.cont, [("dl/a.bin", [])], ⟨[], []⟩) :=
  C1_existing_valid_file_not_refetched clientA "linux"
    ⟨some "da39a3ee5e6b4b0d3255bfef95601890afd80709",
     some ⟨"https://h/a.bin"⟩, none⟩
    [("dl/a.bin", [])] ⟨[], []⟩ ⟨"https://h/a.bin"⟩
    ⟨"https", "h", ["a.bin"], none⟩ "a.bin" []
    rfl (by decide) (by decide) (by decide) rfl (by decide)

/-- Skipping one variant when the platform is not allowed (lines 99-101):
the loop body does nothing for any variant. -/
lemma processVariant_platform_skip (cl : Client) (platform : String)
    (file : DownloadStruct) (fs : FS) (t : Trace)
    (hp : cl.platforms.contains platform = false) :
    processVariant cl platform file fs t = (VariantStep.cont, fs, t) := by
  unfold processVariant
  cases hu : file.url with
  | none => simp only [hu]
  | some u => simp only [hu, hp]

/-- The whole variant loop is the identity when the platform is not
allowed. -/
lemma downloadLoop_platform_skip (cl : Client) (platform : String)
    (hp : cl.platforms.contains platform = false) :
    ∀ (l : List DownloadStruct) (fs : FS) (t : Trace),
      downloadLoop cl platform l fs t = (Outcome.ok, fs, t)
  | [], _, _ => rfl
  | file :: rest, fs, t => by
    rw [downloadLoop, processVariant_platform_skip cl platform file fs t hp]
    exact downloadLoop_platform_skip cl platform hp rest fs t

/-- C5: a Download whose platform is outside the allow-set is processed
with zero filesystem writes and zero HTTP requests for every variant, and
returns success. -/
theorem C5_disallowed_platform_noop (cl : Client) (d : Download) (fs : FS)
    (t : Trace) (hp : cl.platforms.contains d.platform = false) :
    download cl d fs t = (Outcome.ok, fs, t) := by
  unfold download
  exact downloadLoop_platform_skip cl d.platform hp d.download_struct fs t

/-- Witness for C5: a `windows` Download against the `\x7blinux\x7d`
allow-set is a successful no-op. -/
theorem C5_witness :
    download clientA ⟨"windows", [varGood], none⟩ [] ⟨[], []⟩ =
      (Outcome.ok, [], ⟨[], []⟩) :=
  C5_disallowed_platform_noop clientA ⟨"windows", [varGood], none⟩ []
    ⟨[], []⟩ (by decide)

/-- C2 (refuted, code bug): a URL whose path ends in `/` makes the
`unwrap()` on line 110 panic — not an explicit error — and the remaining
variants of the Download are abandoned; an unparseable URL yields an
explicit `UrlParse` error, but the `?` on line 103 likewise abandons the
remaining variants instead of aborting only the offending one. -/
theorem C2_malformed_url_panics_or_aborts_rest :
    download clientA ⟨"linux", [varSlash, varGood], none⟩ [] ⟨[], []⟩ =
      (Outcome.panicked, [], ⟨[], []⟩) ∧
    download clientA ⟨"linux", [varNoParse, varGood], none⟩ [] ⟨[], []⟩ =
      (Outcome.fail ApiError.urlParse, [], ⟨[], []⟩) := by decide

/-- C6 (as stated, refuted): for a URL with a trailing slash the last
non-empty path segment exists, yet the code derives no filename at all
(the `unwrap()` panics) rather than using that segment. -/
theorem C6_counterexample :
    (parseUrl "https://cdn.example/dir/sub/").bind derivedFilename = none ∧
    (parseUrl "https://cdn.example/dir/sub/").bind specLastNonEmptySegment =
      some "sub" := by decide

/-- C6 (amended): when the last path segment (query excluded) is
non-empty, it is the derived filename — the query string never reaches
the segments — and the spec's example URL maps to `file-name.zip`,
written directly into the download folder. -/
theorem C6_filename_is_last_segment (u : ParsedUrl) (fname : String)
    (q : Option String)
    (h : (pathSegments u).getLast? = some fname) (hne : fname ≠ "") :
    derivedFilename u = some fname ∧
    derivedFilename { u with query := q } = derivedFilename u ∧
    (parseUrl "https://cdn.example/dir/sub/file-name.zip?token=abc").bind
      derivedFilename = some "file-name.zip" ∧
    (download clientA
      ⟨"linux",
       [⟨none, some ⟨"https://cdn.example/dir/sub/file-name.zip?token=abc"⟩,
         none⟩], none⟩ [] ⟨[], []⟩).2.2.writes = ["dl/file-name.zip"] := by
  refine ⟨?_, rfl, by decide, by decide⟩
  unfold derivedFilename
  simp [h, hne]

/-- Witness for C6 (amended) at a one-segment URL with a query. -/
theorem C6_witness :
    derivedFilename ⟨"https", "h", ["a.bin"], none⟩ = some "a.bin" ∧
    derivedFilename ⟨"https", "h", ["a.bin"], some "x"⟩ =
      derivedFilename ⟨"https", "h", ["a.bin"], none⟩ ∧
    (parseUrl "https://cdn.example/dir/sub/file-name.zip?token=abc").bind
      derivedFilename = some "file-name.zip" ∧
    (download clientA
      ⟨"linux",
       [⟨none, some ⟨"https://cdn.example/dir/sub/file-name.zip?token=abc"⟩,
         none⟩], none⟩ [] ⟨[], []⟩).2.2.writes = ["dl/file-name.zip"] :=
  C6_filename_is_last_segment ⟨"https", "h", ["a.bin"], none⟩ "a.bin"
    (some "x") (by decide) (by decide)

/-- C8: a digest mismatch found by the post-download check is non-fatal:
the variant still ends in `continue`, the freshly written (bad) file is
kept, exactly one request was issued and one file created, and the loop
proceeds to the remaining variants. -/
theorem C8_post_download_mismatch_nonfatal (cl : Client)
    (platform : String) (file : DownloadStruct) (fs : FS) (t : Trace)
    (u : Url) (download_url : ParsedUrl) (fname : String)
    (content_length : Option Nat) (chunks : List (List Nat))
    (rest : List DownloadStruct)
    (hu : file.url = some u)
    (hp : cl.platforms.contains platform = true)
    (hparse : parseUrl u.web = some download_url)
    (hname : derivedFilename download_url = some fname)
    (hnofile : fsRead fs (cl.download_folder ++ "/" ++ fname) = none)
    (hhttp : cl.http u.web = some (content_length, chunks))
    (hbad : check_data_validity file
      ((cl.download_folder ++ "/" ++ fname, chunks.flatten) ::
        (cl.download_folder ++ "/" ++ fname, []) :: fs)
      (cl.download_folder ++ "/" ++ fname) = Except.ok false) :
    processVariant cl platform file fs t =
      (VariantStep.cont,
       (cl.download_folder ++ "/" ++ fname, chunks.flatten) ::
         (cl.download_folder ++ "/" ++ fname, []) :: fs,
       ⟨t.requests ++ [u.web],
        t.writes ++ [cl.download_folder ++ "/" ++ fname]⟩) ∧
    downloadLoop cl platform (file :: rest) fs t =
      downloadLoop cl platform rest
        ((cl.download_folder ++ "/" ++ fname, chunks.flatten) ::
          (cl.download_folder ++ "/" ++ fname, []) :: fs)
        ⟨t.requests ++ [u.web],
         t.writes ++ [cl.download_folder ++ "/" ++ fname]⟩ := by
  have h1 : processVariant cl platform file fs t =
      (VariantStep.cont,
       (cl.download_folder ++ "/" ++ fname, chunks.flatten) ::
         (cl.download_folder ++ "/" ++ fname, []) :: fs,
       ⟨t.requests ++ [u.web],
        t.writes ++ [cl.download_folder ++ "/" ++ fname]⟩) := by
    unfold processVariant fetchAndWrite
    simp only [hu, hp, hparse, hname, hnofile, hhttp, hbad]
  refine ⟨h1, ?_⟩
  rw [downloadLoop, h1]

/-- Witness for C8: an expected SHA-1 of `00` never matches the body
`abc`, yet the variant completes and the bad file stays. -/
theorem C8_witness :
    processVariant clientA "linux"
      ⟨some "00", some ⟨"https://h/a.bin"⟩, none⟩ [] ⟨[], []⟩ =
      (VariantStep.cont, [("dl/a.bin", [97, 98, 99]), ("dl/a.bin", [])],
       ⟨["https://h/a.bin"], ["dl/a.bin"]⟩) ∧
    downloadLoop clientA "linux"
      [⟨some "00", some ⟨"https://h/a.bin"⟩, none⟩] [] ⟨[], []⟩ =
      downloadLoop clientA "linux" []
        [("dl/a.bin", [97, 98, 99]), ("dl/a.bin", [])]
        ⟨["https://h/a.bin"], ["dl/a.bin"]⟩ :=
  C8_post_download_mismatch_nonfatal clientA "linux"
    ⟨some "00", some ⟨"https://h/a.bin"⟩, none⟩ [] ⟨[], []⟩
    ⟨"https://h/a.bin"⟩ ⟨"https", "h", ["a.bin"], none⟩ "a.bin"
    (some 3) [[97], [98, 99]] []
    rfl (by decide) (by decide) (by decide) rfl rfl (by decide)

/-- Splitting the download list of `downloadsLoop`: the tail runs only
when the front ran through successfully. -/
lemma downloadsLoop_append (cl : Client) :
    ∀ (l1 l2 : List Download) (fs : FS) (t : Trace),
      downloadsLoop cl (l1 ++ l2) fs t =
        match downloadsLoop cl l1 fs t with
        | (Outcome.ok, fs2, t2) => downloadsLoop cl l2 fs2 t2
        | out => out
  | [], _, _, _ => rfl
  | d :: rest, l2, fs, t => by
    rcases hd : download cl d fs t with ⟨o, fs2, t2⟩
    cases o with
    | ok =>
      simp only [List.cons_append, downloadsLoop, hd]
      exact downloadsLoop_append cl rest l2 fs2 t2
    | fail e => simp only [List.cons_append, downloadsLoop, hd]
    | panicked => simp only [List.cons_append, downloadsLoop, hd]

/-- The two nested loops of `download_order` are the sequential
short-circuiting run over the flattened Subproduct-by-Download list. -/
lemma subproductsLoop_flatten (cl : Client) :
    ∀ (sps : List Subproduct) (fs : FS) (t : Trace),
      subproductsLoop cl sps fs t =
        downloadsLoop cl (sps.map Subproduct.downloads).flatten fs t
  | [], _, _ => rfl
  | p :: rest, fs, t => by
    rw [List.map_cons, List.flatten_cons, downloadsLoop_append,
      subproductsLoop]
    rcases hd : downloadsLoop cl p.downloads fs t with ⟨o, fs2, t2⟩
    cases o with
    | ok =>
      simp only [hd]
      exact subproductsLoop_flatten cl rest fs2 t2
    | fail e => simp only [hd]
    | panicked => simp only [hd]

/-- C7: `download_order` runs every Subproduct and every Download of the
order strictly sequentially; a failing download is returned as is, with
nothing run after it, a successful one hands its state to the rest, and
an exhausted list returns success. -/
theorem C7_download_order_sequential (cl : Client) (sps : List Subproduct)
    (fs : FS) (t : Trace) :
    download_order cl ⟨sps⟩ fs t =
      downloadsLoop cl (sps.map Subproduct.downloads).flatten fs t ∧
    (∀ d rest fs2 t2 e fs3 t3,
      download cl d fs2 t2 = (Outcome.fail e, fs3, t3) →
      downloadsLoop cl (d :: rest) fs2 t2 = (Outcome.fail e, fs3, t3)) ∧
    (∀ d rest fs2 t2 fs3 t3,
      download cl d fs2 t2 = (Outcome.ok, fs3, t3) →
      downloadsLoop cl (d :: rest) fs2 t2 = downloadsLoop cl rest fs3 t3) ∧
    downloadsLoop cl ([] : List Download) fs t = (Outcome.ok, fs, t) := by
  refine ⟨subproductsLoop_flatten cl sps fs t, ?_, ?_, rfl⟩
  · intro d rest fs2 t2 e fs3 t3 h
    simp only [downloadsLoop, h]
  · intro d rest fs2 t2 fs3 t3 h
    simp only [downloadsLoop, h]

/-- Witness for C7: a one-subproduct order flattens; a failing first
download is returned with the second never run; a skipped first download
hands over to the second; the empty list succeeds. -/
theorem C7_witness :
    download_order clientFail ⟨[⟨[⟨"linux", [varGood], none⟩]⟩]⟩ [] ⟨[], []⟩ =
      downloadsLoop clientFail [⟨"linux", [varGood], none⟩] [] ⟨[], []⟩ ∧
    downloadsLoop clientFail
      [⟨"linux", [varGood], none⟩, ⟨"linux", [varGood], none⟩] [] ⟨[], []⟩ =
      (Outcome.fail ApiError.api, [("dl/a.bin", [])],
       ⟨["https://h/a.bin"], ["dl/a.bin"]⟩) ∧
    downloadsLoop clientFail
      [⟨"windows", [varGood], none⟩, ⟨"linux", [varGood], none⟩] [] ⟨[], []⟩ =
      downloadsLoop clientFail [⟨"linux", [varGood], none⟩] [] ⟨[], []⟩ ∧
    downloadsLoop clientFail ([] : List Download) [] ⟨[], []⟩ =
      (Outcome.ok, [], ⟨[], []⟩) :=
  ⟨(C7_download_order_sequential clientFail [⟨[⟨"linux", [varGood], none⟩]⟩]
      [] ⟨[], []⟩).1,
   (C7_download_order_sequential clientFail [] [] ⟨[], []⟩).2.1
     ⟨"linux", [varGood], none⟩ [⟨"linux", [varGood], none⟩] [] ⟨[], []⟩
     ApiError.api [("dl/a.bin", [])] ⟨["https://h/a.bin"], ["dl/a.bin"]⟩
     (by decide),
   (C7_download_order_sequential clientFail [] [] ⟨[], []⟩).2.2.1
     ⟨"windows", [varGood], none⟩ [⟨"linux", [varGood], none⟩] [] ⟨[], []⟩
     [] ⟨[], []⟩ (by decide),
   (C7_download_order_sequential clientFail [] [] ⟨[], []⟩).2.2.2⟩

/-- Witness for C9: the uppercase rendering of the empty file's true
SHA-1 fails verification against the empty file. -/
theorem C9_witness :
    check_data_validity
      ⟨some "DA39A3EE5E6B4B0D3255BFEF95601890AFD80709", none, none⟩
      [("p", [])] "p" = Except.ok false :=
  (C9_uppercase_expected_digest_never_matches
    ⟨some "DA39A3EE5E6B4B0D3255BFEF95601890AFD80709", none, none⟩
    [("p", [])] "p" [] "DA39A3EE5E6B4B0D3255BFEF95601890AFD80709" 'D'
    rfl (by decide) (by decide)).1 rfl

end HbDl
